import Mathlib

/-!
Shallow embedding of the performance-model ingestion and flow-statistics
aggregation pipeline of `LWE.cc` (an ns-3 driver program).

Modelling conventions:
* C++ `double` arithmetic is modelled exactly over `ℚ`; all the constants the
  program manipulates (CSV measurements, 0.5-second stagger, kbps conversion
  factors) are exactly representable, and the properties at stake are exact
  arithmetic identities.
* C++ `uint32_t` packet counters are modelled as unbounded `ℕ`, at the same
  idealisation level as the exact rationals.
* A C++ `std::string` is a `List Char`; a CSV file is an
  `Option (List (List Char))`: `none` models a file that cannot be opened,
  `some lines` models the sequence of lines `std::getline` yields.
* An uncaught exception (the program aborting) is modelled by `none` in an
  `Option` result.
-/

/-- Structure `LweMetrics` from `LWE.cc` lines 15–21, with its in-class default
initialisers. -/
structure LweMetrics where
  avg_computation_time_ms : ℚ
  avg_memory_kb : ℚ
  avg_energy_mj : ℚ
  key_size_bytes : ℤ
  public_data_bytes : ℤ
deriving DecidableEq, Repr

/-- The built-in defaults of `LweMetrics` (0.5 ms, 12.0 KB, 0.5 mJ, 256 B,
16640 B), i.e. the initial value of the global `g_metrics`. -/
def defaultMetrics : LweMetrics :=
  { avg_computation_time_ms := 1/2
    avg_memory_kb := 12
    avg_energy_mj := 1/2
    key_size_bytes := 256
    public_data_bytes := 16640 }

/-- One comma-delimited tokenisation step: characters up to the first `,`. -/
def splitOnComma : List Char → List (List Char)
  | [] => [[]]
  | c :: rest =>
      let r := splitOnComma rest
      if c = ',' then [] :: r
      else
        match r with
        | [] => [[c]]
        | f :: fs => (c :: f) :: fs

/-- The row tokenisation of `LWE.cc` lines 45–47: repeated
`std::getline(ss, item, ',')`. `getline` on an exhausted stream fails without
producing a token, so an empty line yields no tokens and a line ending in `,`
yields no trailing empty token (the delimiter is consumed together with the
token before it). -/
def cppSplit (cs : List Char) : List (List Char) :=
  match cs with
  | [] => []
  | _ =>
      if cs.getLast? = some ',' then (splitOnComma cs).dropLast
      else splitOnComma cs

/-- C-locale whitespace skipped by `strtod`. -/
def isSpaceChar (c : Char) : Bool :=
  c = ' ' ∨ c = '\t' ∨ c = '\n' ∨ c = '\x0b' ∨ c = '\x0c' ∨ c = '\r'

/-- The natural number denoted by a list of decimal digit characters. -/
def digitsToNat (l : List Char) : ℕ :=
  l.foldl (fun acc c => acc * 10 + (c.toNat - 48)) 0

/-- Powers of ten over `ℚ` by plain recursion (kernel-friendly). -/
def pow10 : ℕ → ℚ
  | 0 => 1
  | n + 1 => 10 * pow10 n

/-- The exponent part accepted by `strtod` after the mantissa: `e`/`E`, an
optional sign and digits, returned as (negative?, magnitude). If no digit
follows, the exponent part is not consumed and contributes exponent 0. -/
def stodExponent (cs : List Char) : Bool × ℕ :=
  match cs with
  | 'e' :: rest =>
      let p := match rest with
        | '-' :: r2 => (true, r2)
        | '+' :: r2 => (false, r2)
        | _ => (false, rest)
      let ds := p.2.takeWhile Char.isDigit
      if ds.isEmpty then (false, 0) else (p.1, digitsToNat ds)
  | 'E' :: rest =>
      let p := match rest with
        | '-' :: r2 => (true, r2)
        | '+' :: r2 => (false, r2)
        | _ => (false, rest)
      let ds := p.2.takeWhile Char.isDigit
      if ds.isEmpty then (false, 0) else (p.1, digitsToNat ds)
  | _ => (false, 0)

/-- The components of the longest decimal-literal prefix `strtod` recognises:
sign, integer-part value, fraction-part value and digit count, exponent sign
and magnitude. -/
structure StodParts where
  neg : Bool
  ip : ℕ
  fp : ℕ
  fpLen : ℕ
  eneg : Bool
  emag : ℕ
deriving DecidableEq, Repr

/-- The tokenising phase of `std::stod` (strtod semantics) on the decimal
forms occurring in a numeric-measurement CSV: optional whitespace, optional
sign, digits with an optional fractional part, optional exponent. `none`
models the `std::invalid_argument` exception thrown when no conversion can be
performed because no digit occurs. (The hexadecimal/infinity/nan alternatives
of strtod are outside the data domain and not modelled.) -/
def stodParts (s : List Char) : Option StodParts :=
  let cs := s.dropWhile isSpaceChar
  let p : Bool × List Char :=
    match cs with
    | '-' :: rest => (true, rest)
    | '+' :: rest => (false, rest)
    | _ => (false, cs)
  let intPart := p.2.takeWhile Char.isDigit
  let afterInt := p.2.dropWhile Char.isDigit
  let q : List Char × List Char :=
    match afterInt with
    | '.' :: rest => (rest.takeWhile Char.isDigit, rest.dropWhile Char.isDigit)
    | _ => ([], afterInt)
  if intPart.isEmpty ∧ q.1.isEmpty then none
  else
    let ex := stodExponent q.2
    some ⟨p.1, digitsToNat intPart, digitsToNat q.1, q.1.length, ex.1, ex.2⟩

/-- The rational number denoted by a recognised decimal literal. -/
def stodQ (p : StodParts) : ℚ :=
  (if p.neg then -1 else 1) * ((p.ip : ℚ) + (p.fp : ℚ) / pow10 p.fpLen) *
    (if p.eneg then 1 / pow10 p.emag else pow10 p.emag)

/-- Model of `std::stod`: the value of the recognised prefix, or `none` for the
`std::invalid_argument` exception. -/
def stod (s : List Char) : Option ℚ :=
  (stodParts s).map stodQ

/-- The per-line body of the CSV reading loop, `LWE.cc` lines 40–55: split the
line on commas; if at least 6 fields result, add `stod` of fields 1, 2 and 5 to
the running sums and bump the valid-row count; otherwise skip the line. A
`stod` failure (`none`) aborts the whole load: the exception escapes `main`. -/
def loadStep (acc : Option (ℚ × ℚ × ℚ × ℕ)) (l : List Char) :
    Option (ℚ × ℚ × ℚ × ℕ) :=
  match acc with
  | none => none
  | some (t, m, e, c) =>
      let row := cppSplit l
      if 6 ≤ row.length then
        match stod (row.getD 1 []), stod (row.getD 2 []), stod (row.getD 5 []) with
        | some x, some y, some z => some (t + x, m + y, e + z, c + 1)
        | _, _, _ => none
      else some (t, m, e, c)

/-- Function `LoadMetricsFromCSV`, `LWE.cc` lines 27–66. `file = none`: the file cannot
be opened and the metrics are returned unchanged. Otherwise the first line (the
header) is consumed and discarded, every further line goes through `loadStep`,
and if at least one valid row was counted the three averaged fields are
overwritten with `sum / count`. The result is `none` when an uncaught `stod`
exception aborts the program. -/
def LoadMetricsFromCSV (file : Option (List (List Char))) (g : LweMetrics) :
    Option LweMetrics :=
  match file with
  | none => some g
  | some lines =>
      match (lines.drop 1).foldl loadStep (some (0, 0, 0, 0)) with
      | none => none
      | some (t, m, e, c) =>
          if 0 < c then
            some { g with
                    avg_computation_time_ms := t / c
                    avg_memory_kb := m / c
                    avg_energy_mj := e / c }
          else some g

/-- The data rows of a CSV that the loader counts as valid: the lines after the
header whose comma tokenisation has at least 6 fields. -/
def validRows (lines : List (List Char)) : List (List Char) :=
  (lines.drop 1).filter (fun l => 6 ≤ (cppSplit l).length)

/-- Field `i` of a CSV line (out-of-range reads never occur in the loader). -/
def csvField (i : ℕ) (l : List Char) : List Char :=
  (cppSplit l).getD i []

/-- The value `stod` yields on a field (0 when it would throw; used only under
a hypothesis that it does not). -/
def stodVal (s : List Char) : ℚ := (stod s).getD 0

/-- One per-flow statistics record as produced by the external FlowMonitor
(`txPackets`, `rxPackets`, `delaySum`, `rxBytes`). -/
structure FlowStats where
  txPackets : ℕ
  rxPackets : ℕ
  delaySumSeconds : ℚ
  rxBytes : ℕ
deriving DecidableEq, Repr

/-- The network-level metrics computed at `LWE.cc` lines 175–192. -/
structure AggregateMetrics where
  totalTxPackets : ℕ
  totalRxPackets : ℕ
  pdrPercent : ℚ
  avgDelayMs : ℚ
  throughputKbps : ℚ
  totalEnergyMj : ℚ
deriving DecidableEq, Repr

/-- The statistics loop of `LWE.cc` lines 180–188: accumulate
(totalThroughput, totalDelay, totalRxPackets, totalTxPackets) over the flow
records; delay and throughput only accumulate for flows with `rxPackets > 0`,
each such flow contributing its `delaySum` and `rxBytes * 8 / simTime / 1000`
kbps. -/
def flowFold (simTime : ℚ) (flows : List FlowStats) : ℚ × ℚ × ℕ × ℕ :=
  flows.foldl
    (fun acc f =>
      (acc.1 + (if 0 < f.rxPackets then (f.rxBytes : ℚ) * 8 / simTime / 1000 else 0),
       acc.2.1 + (if 0 < f.rxPackets then f.delaySumSeconds else 0),
       acc.2.2.1 + f.rxPackets,
       acc.2.2.2 + f.txPackets))
    (0, 0, 0, 0)

/-- Statistics reduction of `LWE.cc` lines 175–192: the flow loop followed by the guarded derived
metrics `avgDelay`, `pdr` and `totalEnergy`
(`g_totalPacketsSent * g_metrics.avg_energy_mj`). -/
def aggregate (flows : List FlowStats) (simTime : ℚ) (packetsSent : ℕ)
    (g : LweMetrics) : AggregateMetrics :=
  let r := flowFold simTime flows
  { totalTxPackets := r.2.2.2
    totalRxPackets := r.2.2.1
    pdrPercent := if 0 < r.2.2.2 then (r.2.2.1 : ℚ) / (r.2.2.2 : ℚ) * 100 else 0
    avgDelayMs := if 0 < r.2.2.1 then r.2.1 / (r.2.2.1 : ℚ) * 1000 else 0
    throughputKbps := r.1
    totalEnergyMj := (packetsSent : ℚ) * g.avg_energy_mj }

/-- The per-node schedule of `LWE.cc` line 144 with the base offset (2.0 s in
the source) as a parameter: start time
`base + i * 0.5 + avg_computation_time_ms / 1000` and payload
`public_data_bytes` (line 141). -/
def plan (nodeIndex : ℕ) (baseOffsetSeconds : ℚ) (g : LweMetrics) : ℚ × ℤ :=
  (baseOffsetSeconds + (nodeIndex : ℚ) * (1/2) + g.avg_computation_time_ms / 1000,
   g.public_data_bytes)

/-- The configuration each client application gets in the setup loop of
`LWE.cc` lines 135–151: start time, payload size, `MaxPackets`. -/
structure ClientPlan where
  startTimeSeconds : ℚ
  payloadBytes : ℤ
  maxPackets : ℕ
deriving DecidableEq, Repr

/-- The client-setup loop of `LWE.cc` lines 135–151: for `i = 0..n-1` install
a client with `MaxPackets = 1`, payload `public_data_bytes` and start time
`2.0 + i * 0.5 + avg_computation_time_ms / 1000`, incrementing the global
`g_totalPacketsSent` once per node. Returns the client list and the final
counter value. -/
def setupClients (n : ℕ) (g : LweMetrics) : List ClientPlan × ℕ :=
  (List.range n).foldl
    (fun acc i => (acc.1 ++ [⟨(plan i 2 g).1, (plan i 2 g).2, 1⟩], acc.2 + 1))
    ([], 0)

/-- One line of the results file: the header line (carrying its column names)
or a data row (its numeric fields in output order). -/
inductive OutLine where
  | header (cols : List (List Char))
  | data (fields : List ℚ)
deriving DecidableEq, Repr

/-- The 9 column names of the header line, `LWE.cc` lines 210–211. -/
def headerColumns : List (List Char) :=
  ["nodes".toList, "packets_sent".toList, "packets_received".toList,
   "pdr".toList, "avg_delay_ms".toList, "throughput_kbps".toList,
   "total_energy_mj".toList, "computation_ms".toList, "memory_kb".toList]

/-- The data row of `LWE.cc` lines 214–217, in output order: nodes,
packets sent, packets received, pdr, avg delay, throughput, total energy,
computation ms, memory KB total (`avg_memory_kb * nIoTNodes`). -/
def resultRow (nodes sent recv : ℕ) (pdr delay thr energy : ℚ)
    (g : LweMetrics) : List ℚ :=
  [(nodes : ℚ), (sent : ℚ), (recv : ℚ), pdr, delay, thr, energy,
   g.avg_computation_time_ms, g.avg_memory_kb * (nodes : ℚ)]

/-- The append-mode write of `LWE.cc` lines 206–217 on a file that did open:
the header is written exactly when the write position after opening in append
mode is offset 0, i.e. the file is empty; then one data row is appended. -/
def writeResults (file : List OutLine) (nodes sent recv : ℕ)
    (pdr delay thr energy : ℚ) (g : LweMetrics) : List OutLine :=
  (if file.isEmpty then file ++ [OutLine.header headerColumns] else file) ++
    [OutLine.data (resultRow nodes sent recv pdr delay thr energy g)]

/-- The whole results-saving step plus program exit, `LWE.cc` lines 206–223:
`file = none` models an `ofstream` that failed to open, on which every
insertion is a silent no-op; in both cases `main` falls through to
`return 0`. The second component is the process exit status the caller
observes. -/
def saveResults (file : Option (List OutLine)) (nodes sent recv : ℕ)
    (pdr delay thr energy : ℚ) (g : LweMetrics) : Option (List OutLine) × ℤ :=
  match file with
  | none => (none, 0)
  | some f => (some (writeResults f nodes sent recv pdr delay thr energy g), 0)

/-! Concrete CSV fixtures used to instantiate the theorems below. -/

/-- A header line (its content is discarded by the loader). -/
def csvHeaderLine : List Char := "run,time,mem,a,b,energy".toList

/-- P2 data row 1: `[_, "1.0", "10.0", _, _, "2.0"]`. -/
def p2row1 : List Char := "r1,1.0,10.0,x,y,2.0".toList

/-- P2 data row 2: `[_, "3.0", "20.0", _, _, "4.0"]`. -/
def p2row2 : List Char := "r2,3.0,20.0,x,y,4.0".toList

/-- The two-row CSV of property P2. -/
def p2csv : List (List Char) := [csvHeaderLine, p2row1, p2row2]

/-- A malformed data row with only 2 comma-separated fields. -/
def shortRow : List Char := "a,b".toList

/-- A data row with 6 fields whose required field index 1 is not numeric. -/
def badFieldRow : List Char := "r3,abc,10.0,x,y,2.0".toList

lemma loadStep_none_eq (l : List Char) : loadStep none l = none := rfl

lemma loadStep_valid (t m e : ℚ) (c : ℕ) (l : List Char) (x y z : ℚ)
    (h6 : 6 ≤ (cppSplit l).length)
    (h1 : stod ((cppSplit l).getD 1 []) = some x)
    (h2 : stod ((cppSplit l).getD 2 []) = some y)
    (h5 : stod ((cppSplit l).getD 5 []) = some z) :
    loadStep (some (t, m, e, c)) l = some (t + x, m + y, e + z, c + 1) := by
  simp only [loadStep, if_pos h6, h1, h2, h5]

lemma loadStep_skip (t m e : ℚ) (c : ℕ) (l : List Char)
    (h6 : (cppSplit l).length < 6) :
    loadStep (some (t, m, e, c)) l = some (t, m, e, c) := by
  simp only [loadStep, if_neg (Nat.not_le.mpr h6)]

lemma loadStep_foldl (ls : List (List Char)) (t m e : ℚ) (c : ℕ)
    (h : ∀ l ∈ ls, 6 ≤ (cppSplit l).length →
      (stod (csvField 1 l)).isSome ∧ (stod (csvField 2 l)).isSome ∧
        (stod (csvField 5 l)).isSome) :
    ls.foldl loadStep (some (t, m, e, c)) =
      some (t + ((ls.filter fun l => 6 ≤ (cppSplit l).length).map
                  fun l => stodVal (csvField 1 l)).sum,
            m + ((ls.filter fun l => 6 ≤ (cppSplit l).length).map
                  fun l => stodVal (csvField 2 l)).sum,
            e + ((ls.filter fun l => 6 ≤ (cppSplit l).length).map
                  fun l => stodVal (csvField 5 l)).sum,
            c + (ls.filter fun l => 6 ≤ (cppSplit l).length).length) := by
  induction ls generalizing t m e c with
  | nil => simp
  | cons l ls ih =>
    by_cases h6 : 6 ≤ (cppSplit l).length
    · obtain ⟨h1, h2, h5⟩ := h l (List.mem_cons_self l ls) h6
      obtain ⟨x, hx⟩ := Option.isSome_iff_exists.mp h1
      obtain ⟨y, hy⟩ := Option.isSome_iff_exists.mp h2
      obtain ⟨z, hz⟩ := Option.isSome_iff_exists.mp h5
      rw [List.foldl_cons, loadStep_valid t m e c l x y z h6 hx hy hz,
        ih _ _ _ _ (fun l2 hl2 => h l2 (List.mem_cons_of_mem _ hl2)),
        List.filter_cons_of_pos (by simpa using h6)]
      simp only [List.map_cons, List.sum_cons, List.length_cons, stodVal, hx, hy, hz,
        Option.getD_some, Option.some.injEq, Prod.mk.injEq]
      refine ⟨by ring, by ring, by ring, by omega⟩
    · rw [List.foldl_cons, loadStep_skip t m e c l (Nat.not_le.mp h6),
        ih _ _ _ _ (fun l2 hl2 => h l2 (List.mem_cons_of_mem _ hl2)),
        List.filter_cons_of_neg (by simpa using h6)]

lemma stod_p2row1_f1 : stod (csvField 1 p2row1) = some 1 := by
  rw [stod, (show stodParts (csvField 1 p2row1) = some ⟨false, 1, 0, 1, false, 0⟩ by decide)]
  norm_num [stodQ, pow10]

lemma stod_p2row1_f2 : stod (csvField 2 p2row1) = some 10 := by
  rw [stod, (show stodParts (csvField 2 p2row1) = some ⟨false, 10, 0, 1, false, 0⟩ by decide)]
  norm_num [stodQ, pow10]

lemma stod_p2row1_f5 : stod (csvField 5 p2row1) = some 2 := by
  rw [stod, (show stodParts (csvField 5 p2row1) = some ⟨false, 2, 0, 1, false, 0⟩ by decide)]
  norm_num [stodQ, pow10]

lemma stod_p2row2_f1 : stod (csvField 1 p2row2) = some 3 := by
  rw [stod, (show stodParts (csvField 1 p2row2) = some ⟨false, 3, 0, 1, false, 0⟩ by decide)]
  norm_num [stodQ, pow10]

lemma stod_p2row2_f2 : stod (csvField 2 p2row2) = some 20 := by
  rw [stod, (show stodParts (csvField 2 p2row2) = some ⟨false, 20, 0, 1, false, 0⟩ by decide)]
  norm_num [stodQ, pow10]

lemma stod_p2row2_f5 : stod (csvField 5 p2row2) = some 4 := by
  rw [stod, (show stodParts (csvField 5 p2row2) = some ⟨false, 4, 0, 1, false, 0⟩ by decide)]
  norm_num [stodQ, pow10]

lemma stodVal_p2row1_f1 : stodVal (csvField 1 p2row1) = 1 := by
  rw [stodVal, stod_p2row1_f1]; rfl

lemma stodVal_p2row1_f2 : stodVal (csvField 2 p2row1) = 10 := by
  rw [stodVal, stod_p2row1_f2]; rfl

lemma stodVal_p2row1_f5 : stodVal (csvField 5 p2row1) = 2 := by
  rw [stodVal, stod_p2row1_f5]; rfl

lemma stodVal_p2row2_f1 : stodVal (csvField 1 p2row2) = 3 := by
  rw [stodVal, stod_p2row2_f1]; rfl

lemma stodVal_p2row2_f2 : stodVal (csvField 2 p2row2) = 20 := by
  rw [stodVal, stod_p2row2_f2]; rfl

lemma stodVal_p2row2_f5 : stodVal (csvField 5 p2row2) = 4 := by
  rw [stodVal, stod_p2row2_f5]; rfl

/-- C1: for every CSV that opens and has at least one valid data row (≥ 6
comma-separated fields after the header), and whose valid rows' required
fields all convert, the loader sets the three averaged fields to the column
sums over the valid rows divided by the valid-row count (fields 1, 2 and 5
respectively), leaving the two constant fields unchanged. -/
theorem load_sets_averages (lines : List (List Char)) (g : LweMetrics)
    (hparse : ∀ l ∈ validRows lines,
      (stod (csvField 1 l)).isSome ∧ (stod (csvField 2 l)).isSome ∧
        (stod (csvField 5 l)).isSome)
    (hcount : 0 < (validRows lines).length) :
    LoadMetricsFromCSV (some lines) g =
      some { g with
              avg_computation_time_ms :=
                ((validRows lines).map fun l => stodVal (csvField 1 l)).sum /
                  ((validRows lines).length : ℚ)
              avg_memory_kb :=
                ((validRows lines).map fun l => stodVal (csvField 2 l)).sum /
                  ((validRows lines).length : ℚ)
              avg_energy_mj :=
                ((validRows lines).map fun l => stodVal (csvField 5 l)).sum /
                  ((validRows lines).length : ℚ) } := by
  have hfold := loadStep_foldl (lines.drop 1) 0 0 0 0
    (fun l hl h6 => hparse l (List.mem_filter.mpr ⟨hl, by simpa using h6⟩))
  simp only [LoadMetricsFromCSV, hfold, zero_add, validRows]
  rw [if_pos (by simpa [validRows] using hcount)]

/-- C1 witness: the two-row CSV of P2 loads as computationTimeMs = 2.0,
memoryKb = 15.0, energyMj = 3.0 (constants unchanged). -/
theorem load_sets_averages_witness :
    LoadMetricsFromCSV (some p2csv) defaultMetrics = some ⟨2, 15, 3, 256, 16640⟩ := by
  have hv : validRows p2csv = [p2row1, p2row2] := by decide
  have hp : ∀ l ∈ validRows p2csv,
      (stod (csvField 1 l)).isSome ∧ (stod (csvField 2 l)).isSome ∧
        (stod (csvField 5 l)).isSome := by
    rw [hv]
    intro l hl
    simp only [List.mem_cons, List.not_mem_nil, or_false] at hl
    rcases hl with rfl | rfl
    · exact ⟨by rw [stod_p2row1_f1]; rfl, by rw [stod_p2row1_f2]; rfl,
             by rw [stod_p2row1_f5]; rfl⟩
    · exact ⟨by rw [stod_p2row2_f1]; rfl, by rw [stod_p2row2_f2]; rfl,
             by rw [stod_p2row2_f5]; rfl⟩
  rw [load_sets_averages p2csv defaultMetrics hp (by rw [hv]; decide), hv]
  simp only [List.map_cons, List.map_nil, List.sum_cons, List.sum_nil,
    List.length_cons, List.length_nil, stodVal_p2row1_f1, stodVal_p2row1_f2,
    stodVal_p2row1_f5, stodVal_p2row2_f1, stodVal_p2row2_f2, stodVal_p2row2_f5,
    defaultMetrics]
  norm_num

/-- C4: if the CSV cannot be opened, or opens but zero valid rows are parsed,
the loader leaves the profile exactly equal to the built-in defaults
(0.5 ms, 12.0 KB, 0.5 mJ, 256 B, 16640 B): no field is modified. -/
theorem load_defaults_on_failure (file : Option (List (List Char)))
    (h : file = none ∨ ∃ lines, file = some lines ∧ (validRows lines).length = 0) :
    LoadMetricsFromCSV file defaultMetrics = some defaultMetrics ∧
      defaultMetrics = ⟨1/2, 12, 1/2, 256, 16640⟩ := by
  refine ⟨?_, rfl⟩
  rcases h with rfl | ⟨lines, rfl, hlen⟩
  · rfl
  · have hfilter : (lines.drop 1).filter (fun l => 6 ≤ (cppSplit l).length) = [] :=
      List.length_eq_zero.mp (by simpa [validRows] using hlen)
    have hfold := loadStep_foldl (lines.drop 1) 0 0 0 0
      (fun l hl h6 => by
        have hmem : l ∈ (lines.drop 1).filter (fun l => 6 ≤ (cppSplit l).length) :=
          List.mem_filter.mpr ⟨hl, by simpa using h6⟩
        rw [hfilter] at hmem
        exact absurd hmem (List.not_mem_nil l))
    simp only [LoadMetricsFromCSV, hfold, hfilter, List.map_nil, List.sum_nil,
      List.length_nil, add_zero, Nat.add_zero, zero_add]
    norm_num

/-- C4 witness: an unopenable file, and an opened CSV whose only data row has
2 fields, both load to the built-in defaults. -/
theorem load_defaults_on_failure_witness :
    LoadMetricsFromCSV none defaultMetrics = some defaultMetrics ∧
      LoadMetricsFromCSV (some [csvHeaderLine, shortRow]) defaultMetrics =
        some defaultMetrics :=
  ⟨(load_defaults_on_failure none (Or.inl rfl)).1,
   (load_defaults_on_failure (some [csvHeaderLine, shortRow])
      (Or.inr ⟨[csvHeaderLine, shortRow], rfl, by decide⟩)).1⟩

/-- C5 (code bug): a data row with 6 fields whose required field index 1 is
not numeric makes `std::stod` throw `std::invalid_argument`; the exception is
uncaught, so the whole load aborts (result `none`) instead of skipping the
row — while a row with fewer than 6 fields is indeed skipped harmlessly, as
the same CSV with the bad row replaced by a 2-field row shows (it loads from
the one well-formed row alone: 1.0 ms, 10.0 KB, 2.0 mJ). -/
theorem load_aborts_on_nonnumeric_field :
    LoadMetricsFromCSV (some [csvHeaderLine, p2row1, badFieldRow]) defaultMetrics
        = none ∧
      LoadMetricsFromCSV (some [csvHeaderLine, p2row1, shortRow]) defaultMetrics
        = some ⟨1, 10, 2, 256, 16640⟩ := by
  have h1 : loadStep (some (0, 0, 0, 0)) p2row1 = some (0 + 1, 0 + 10, 0 + 2, 0 + 1) :=
    loadStep_valid 0 0 0 0 p2row1 1 10 2 (by decide)
      stod_p2row1_f1 stod_p2row1_f2 stod_p2row1_f5
  constructor
  · have hbadstod : stod ((cppSplit badFieldRow).getD 1 []) = none := by
      rw [stod, (show stodParts ((cppSplit badFieldRow).getD 1 []) = none by decide)]
      rfl
    have hbad : loadStep (some (0 + 1, 0 + 10, 0 + 2, 0 + 1)) badFieldRow = none := by
      simp only [loadStep, if_pos (show 6 ≤ (cppSplit badFieldRow).length by decide),
        hbadstod]
    have hchain : ([p2row1, badFieldRow] : List (List Char)).foldl loadStep
        (some (0, 0, 0, 0)) = none := by
      rw [List.foldl_cons, h1, List.foldl_cons, hbad, List.foldl_nil]
    simp only [LoadMetricsFromCSV,
      (show ([csvHeaderLine, p2row1, badFieldRow].drop 1) = [p2row1, badFieldRow]
        from rfl), hchain]
  · have hskip : loadStep (some (0 + 1, 0 + 10, 0 + 2, 0 + 1)) shortRow =
        some (0 + 1, 0 + 10, 0 + 2, 0 + 1) :=
      loadStep_skip _ _ _ _ shortRow (by decide)
    have hchain : ([p2row1, shortRow] : List (List Char)).foldl loadStep
        (some (0, 0, 0, 0)) = some (0 + 1, 0 + 10, 0 + 2, 0 + 1) := by
      rw [List.foldl_cons, h1, List.foldl_cons, hskip, List.foldl_nil]
    simp only [LoadMetricsFromCSV,
      (show ([csvHeaderLine, p2row1, shortRow].drop 1) = [p2row1, shortRow]
        from rfl), hchain]
    norm_num [defaultMetrics]

lemma flowFold_go (simTime : ℚ) (flows : List FlowStats) (a b : ℚ) (c d : ℕ) :
    flows.foldl
      (fun acc f =>
        (acc.1 + (if 0 < f.rxPackets then (f.rxBytes : ℚ) * 8 / simTime / 1000 else 0),
         acc.2.1 + (if 0 < f.rxPackets then f.delaySumSeconds else 0),
         acc.2.2.1 + f.rxPackets,
         acc.2.2.2 + f.txPackets)) (a, b, c, d) =
      (a + ((flows.filter fun f => 0 < f.rxPackets).map
              fun f => (f.rxBytes : ℚ) * 8 / simTime / 1000).sum,
       b + ((flows.filter fun f => 0 < f.rxPackets).map fun f => f.delaySumSeconds).sum,
       c + (flows.map fun f => f.rxPackets).sum,
       d + (flows.map fun f => f.txPackets).sum) := by
  induction flows generalizing a b c d with
  | nil => simp
  | cons f fs ih =>
    rw [List.foldl_cons, ih]
    by_cases hrx : 0 < f.rxPackets
    · rw [List.filter_cons_of_pos (by simpa using hrx)]
      simp only [List.map_cons, List.sum_cons, if_pos hrx, Prod.mk.injEq]
      refine ⟨by ring, by ring, by omega, by omega⟩
    · rw [List.filter_cons_of_neg (by simpa using hrx)]
      simp only [List.map_cons, List.sum_cons, if_neg hrx, Prod.mk.injEq]
      refine ⟨by ring, by ring, by omega, by omega⟩

lemma flowFold_eq (simTime : ℚ) (flows : List FlowStats) :
    flowFold simTime flows =
      (((flows.filter fun f => 0 < f.rxPackets).map
          fun f => (f.rxBytes : ℚ) * 8 / simTime / 1000).sum,
       ((flows.filter fun f => 0 < f.rxPackets).map fun f => f.delaySumSeconds).sum,
       (flows.map fun f => f.rxPackets).sum,
       (flows.map fun f => f.txPackets).sum) := by
  rw [flowFold, flowFold_go]
  simp only [zero_add]

/-- C2: the aggregation computes exactly: total tx/rx as the sums of the
per-flow counters; delay and throughput accumulated only over flows with
`rxPackets > 0` (contributing `delaySumSeconds` and
`rxBytes * 8 / simDuration / 1000` respectively); average delay
`(totalDelay / totalRx) * 1000` guarded by `totalRx > 0`; PDR
`(totalRx / totalTx) * 100` guarded by `totalTx > 0`. -/
theorem aggregate_formulas (flows : List FlowStats) (simTime : ℚ)
    (packetsSent : ℕ) (g : LweMetrics) (_hT : 0 < simTime) :
    aggregate flows simTime packetsSent g =
      { totalTxPackets := (flows.map fun f => f.txPackets).sum
        totalRxPackets := (flows.map fun f => f.rxPackets).sum
        pdrPercent :=
          if 0 < (flows.map fun f => f.txPackets).sum then
            (((flows.map fun f => f.rxPackets).sum : ℕ) : ℚ) /
              (((flows.map fun f => f.txPackets).sum : ℕ) : ℚ) * 100
          else 0
        avgDelayMs :=
          if 0 < (flows.map fun f => f.rxPackets).sum then
            ((flows.filter fun f => 0 < f.rxPackets).map
                fun f => f.delaySumSeconds).sum /
              (((flows.map fun f => f.rxPackets).sum : ℕ) : ℚ) * 1000
          else 0
        throughputKbps := ((flows.filter fun f => 0 < f.rxPackets).map
            fun f => (f.rxBytes : ℚ) * 8 / simTime / 1000).sum
        totalEnergyMj := (packetsSent : ℚ) * g.avg_energy_mj } := by
  simp only [aggregate, flowFold_eq]

/-- C2 witness (P6): two fully delivered flows (tx=rx=1, delay 0.01 s,
16640 rx bytes) over 10 s give PDR 100 %, average delay 10 ms, throughput
2·16640·8/10/1000 = 26.624 kbps, energy 2·0.5 = 1 mJ. -/
theorem aggregate_formulas_witness :
    aggregate [⟨1, 1, 1/100, 16640⟩, ⟨1, 1, 1/100, 16640⟩] 10 2 defaultMetrics =
      ⟨2, 2, 100, 10, 3328/125, 1⟩ := by
  rw [aggregate_formulas _ _ _ _ (by norm_num)]
  norm_num [List.filter_cons, List.sum_cons, defaultMetrics]

/-- C3: whenever every flow has rx ≤ tx the PDR lies in [0, 100]; and when no
packets at all were received, PDR, average delay and throughput are all
exactly 0 (the guarded divisions are never taken, so no division by zero and
no NaN arises). -/
theorem aggregate_invariants (flows : List FlowStats) (simTime : ℚ)
    (packetsSent : ℕ) (g : LweMetrics) :
    ((∀ f ∈ flows, f.rxPackets ≤ f.txPackets) →
      0 ≤ (aggregate flows simTime packetsSent g).pdrPercent ∧
        (aggregate flows simTime packetsSent g).pdrPercent ≤ 100) ∧
      ((∀ f ∈ flows, f.rxPackets = 0) →
        (aggregate flows simTime packetsSent g).pdrPercent = 0 ∧
          (aggregate flows simTime packetsSent g).avgDelayMs = 0 ∧
          (aggregate flows simTime packetsSent g).throughputKbps = 0) := by
  constructor
  · intro hle
    have hsum : (flows.map fun f => f.rxPackets).sum ≤
        (flows.map fun f => f.txPackets).sum :=
      List.sum_le_sum fun f hf => hle f hf
    simp only [aggregate, flowFold_eq]
    by_cases htx : 0 < (flows.map fun f => f.txPackets).sum
    · rw [if_pos htx]
      have htxQ : (0 : ℚ) < (((flows.map fun f => f.txPackets).sum : ℕ) : ℚ) := by
        exact_mod_cast htx
      have hsumQ : (((flows.map fun f => f.rxPackets).sum : ℕ) : ℚ) ≤
          (((flows.map fun f => f.txPackets).sum : ℕ) : ℚ) := by exact_mod_cast hsum
      constructor
      · positivity
      · rw [div_mul_eq_mul_div, div_le_iff₀ htxQ]
        nlinarith [hsumQ]
    · rw [if_neg htx]
      norm_num
  · intro hzero
    have hrx : (flows.map fun f => f.rxPackets).sum = 0 :=
      List.sum_eq_zero fun x hx => by
        obtain ⟨f, hf, rfl⟩ := List.mem_map.mp hx
        exact hzero f hf
    have hfilter : (flows.filter fun f => 0 < f.rxPackets) = [] :=
      List.filter_eq_nil_iff.mpr fun f hf => by simp [hzero f hf]
    simp only [aggregate, flowFold_eq, hrx, hfilter, List.map_nil, List.sum_nil,
      Nat.cast_zero, lt_self_iff_false, if_false]
    refine ⟨?_, by trivial, by trivial⟩
    by_cases htx : 0 < (flows.map fun f => f.txPackets).sum
    · rw [if_pos htx]; ring
    · rw [if_neg htx]

/-- C3 witness (P5): one flow with tx=10, rx=0: PDR is in [0, 100] and PDR,
average delay and throughput are all exactly 0. -/
theorem aggregate_invariants_witness :
    (0 ≤ (aggregate [⟨10, 0, 0, 0⟩] 10 2 defaultMetrics).pdrPercent ∧
      (aggregate [⟨10, 0, 0, 0⟩] 10 2 defaultMetrics).pdrPercent ≤ 100) ∧
      ((aggregate [⟨10, 0, 0, 0⟩] 10 2 defaultMetrics).pdrPercent = 0 ∧
        (aggregate [⟨10, 0, 0, 0⟩] 10 2 defaultMetrics).avgDelayMs = 0 ∧
        (aggregate [⟨10, 0, 0, 0⟩] 10 2 defaultMetrics).throughputKbps = 0) :=
  ⟨(aggregate_invariants [⟨10, 0, 0, 0⟩] 10 2 defaultMetrics).1
      (by intro f hf; simp only [List.mem_cons, List.not_mem_nil, or_false] at hf
          subst hf; exact Nat.zero_le 10),
   (aggregate_invariants [⟨10, 0, 0, 0⟩] 10 2 defaultMetrics).2
      (by intro f hf; simp only [List.mem_cons, List.not_mem_nil, or_false] at hf
          subst hf; rfl)⟩

/-- C6: the planner yields start time
`base + i * 0.5 + computationTimeMs / 1000` and payload
`publicDataBytes` for every node; start times are strictly increasing in the
node index. -/
theorem plan_formula_and_monotone (i j : ℕ) (base : ℚ) (g : LweMetrics) :
    plan i base g =
        (base + (i : ℚ) * (1/2) + g.avg_computation_time_ms / 1000,
         g.public_data_bytes) ∧
      (plan i base g).2 = g.public_data_bytes ∧
      (i < j → (plan i base g).1 < (plan j base g).1) := by
  refine ⟨rfl, rfl, fun hij => ?_⟩
  simp only [plan]
  have : (i : ℚ) < (j : ℚ) := by exact_mod_cast hij
  linarith

/-- C6 witness: node 1 starts strictly after node 0 under the default
profile and base offset 2. -/
theorem plan_formula_and_monotone_witness :
    (plan 0 2 defaultMetrics).1 < (plan 1 2 defaultMetrics).1 :=
  (plan_formula_and_monotone 0 1 2 defaultMetrics).2.2 (by norm_num)

/-- C7: total energy is `packetsSentByPlanner * energyMj`, a function of the
planned send count and profile only — identical for any two flow collections
and simulation durations. -/
theorem energy_independent_of_delivery (flows1 flows2 : List FlowStats)
    (t1 t2 : ℚ) (packetsSent : ℕ) (g : LweMetrics) :
    (aggregate flows1 t1 packetsSent g).totalEnergyMj =
        (packetsSent : ℚ) * g.avg_energy_mj ∧
      (aggregate flows1 t1 packetsSent g).totalEnergyMj =
        (aggregate flows2 t2 packetsSent g).totalEnergyMj :=
  ⟨rfl, rfl⟩

lemma setupClients_go (g : LweMetrics) (l : List ℕ) (acc : List ClientPlan × ℕ) :
    l.foldl
        (fun acc i => (acc.1 ++ [⟨(plan i 2 g).1, (plan i 2 g).2, 1⟩], acc.2 + 1))
        acc =
      (acc.1 ++ l.map fun i => ⟨(plan i 2 g).1, (plan i 2 g).2, 1⟩,
       acc.2 + l.length) := by
  induction l generalizing acc with
  | nil => simp
  | cons i l ih =>
    rw [List.foldl_cons, ih]
    simp only [List.map_cons, List.length_cons, List.append_assoc,
      List.singleton_append, Prod.mk.injEq]
    exact ⟨by trivial, by omega⟩

/-- C10: the client-setup loop increments the global packets-sent counter
exactly once per node, so it ends equal to the node count; every client is
configured with `MaxPackets = 1`; and the `packets_sent` field written to the
results row (position 1) is that counter, i.e. the node count. -/
theorem packets_sent_equals_node_count (n : ℕ) (g : LweMetrics) (recv : ℕ)
    (pdr delay thr energy : ℚ) :
    (setupClients n g).2 = n ∧
      ((setupClients n g).1.map fun c => c.maxPackets) = List.replicate n 1 ∧
      (resultRow n (setupClients n g).2 recv pdr delay thr energy g).getD 1 0 =
        (n : ℚ) := by
  have hgo := setupClients_go g (List.range n) ([], 0)
  have hc : (setupClients n g).2 = n := by
    rw [setupClients, hgo]
    simp [List.length_range]
  refine ⟨hc, ?_, ?_⟩
  · rw [setupClients, hgo]
    simp only [List.nil_append, List.map_map]
    have : ((fun c : ClientPlan => c.maxPackets) ∘
        fun i : ℕ => (⟨(plan i 2 g).1, (plan i 2 g).2, 1⟩ : ClientPlan)) =
        fun _ : ℕ => 1 := rfl
    rw [this, List.map_const', List.length_range]
  · rw [(show (resultRow n (setupClients n g).2 recv pdr delay thr energy g).getD 1 0
        = (((setupClients n g).2 : ℕ) : ℚ) from rfl), hc]

/-- C8: the header (a fixed 9-column line) is written exactly when the write
position after the append-mode open is 0, i.e. the file is empty; exactly one
data row follows, its fields in the order nodes, packetsSent, packetsReceived,
pdr, avgDelayMs, throughputKbps, totalEnergyMj, computationMs, memoryKbTotal;
a second append to the now non-empty file adds one data row and no second
header. -/
theorem results_header_iff_empty (f : List OutLine) (nodes sent recv : ℕ)
    (pdr delay thr energy : ℚ) (g : LweMetrics)
    (nodes2 sent2 recv2 : ℕ) (pdr2 delay2 thr2 energy2 : ℚ) (g2 : LweMetrics) :
    headerColumns.length = 9 ∧
      resultRow nodes sent recv pdr delay thr energy g =
        [(nodes : ℚ), (sent : ℚ), (recv : ℚ), pdr, delay, thr, energy,
         g.avg_computation_time_ms, g.avg_memory_kb * (nodes : ℚ)] ∧
      writeResults [] nodes sent recv pdr delay thr energy g =
        [OutLine.header headerColumns,
         OutLine.data (resultRow nodes sent recv pdr delay thr energy g)] ∧
      (f ≠ [] → writeResults f nodes sent recv pdr delay thr energy g =
        f ++ [OutLine.data (resultRow nodes sent recv pdr delay thr energy g)]) ∧
      writeResults (writeResults [] nodes sent recv pdr delay thr energy g)
          nodes2 sent2 recv2 pdr2 delay2 thr2 energy2 g2 =
        [OutLine.header headerColumns,
         OutLine.data (resultRow nodes sent recv pdr delay thr energy g),
         OutLine.data (resultRow nodes2 sent2 recv2 pdr2 delay2 thr2 energy2 g2)] := by
  refine ⟨rfl, rfl, rfl, ?_, rfl⟩
  intro hf
  cases f with
  | nil => exact absurd rfl hf
  | cons a l => rfl

/-- C8 witness: appending to a file already holding a header and a row adds
exactly one data row (no second header). -/
theorem results_header_iff_empty_witness :
    writeResults [OutLine.header headerColumns] 2 2 2 100 10 (3328/125) 1
        defaultMetrics =
      [OutLine.header headerColumns,
       OutLine.data (resultRow 2 2 2 100 10 (3328/125) 1 defaultMetrics)] :=
  (results_header_iff_empty [OutLine.header headerColumns] 2 2 2 100 10 (3328/125) 1
      defaultMetrics 0 0 0 0 0 0 0 defaultMetrics).2.2.2.1 (List.cons_ne_nil _ _)

/-- C9 counterexample: when the results file cannot be opened for append, the
caller observes exactly the same outcome (exit status 0) as when the write
succeeds — no distinguishable failure outcome of the reporting step exists. -/
theorem save_failure_indistinguishable :
    saveResults none 2 2 2 100 10 (3328/125) 1 defaultMetrics = (none, 0) ∧
      (saveResults (some []) 2 2 2 100 10 (3328/125) 1 defaultMetrics).2 = 0 ∧
      (saveResults none 2 2 2 100 10 (3328/125) 1 defaultMetrics).2 =
        (saveResults (some []) 2 2 2 100 10 (3328/125) 1 defaultMetrics).2 :=
  ⟨rfl, rfl, rfl⟩

/-- C9 amended: if the results file cannot be opened for append, the written
results are silently lost and no failure is reported — the reporting step
yields the same exit status 0 as a successful run, and the simulation's own
completion remains successful. -/
theorem save_failure_silent (f : List OutLine) (nodes sent recv : ℕ)
    (pdr delay thr energy : ℚ) (g : LweMetrics) :
    saveResults none nodes sent recv pdr delay thr energy g = (none, 0) ∧
      (saveResults (some f) nodes sent recv pdr delay thr energy g).2 = 0 :=
  ⟨rfl, rfl⟩
